import Mathlib

/-!
Verification of the RustChain network monitor (rustchain_monitor.py).

The program is a thin polling client.  We shallowly embed the pure parts
of the code and the observable behaviour of one iteration of the watch
loop:

* RTC amounts (Python floats that only ever carry exact decimal literals
  and their sums and differences) are modelled as rationals;
* a JSON object field accessed with a dict get is modelled as an Option
  field, absent keys reading as none;
* one iteration of the watch loop is a function from the previous local
  state and the outcome of the fetches (success with data, a caught
  exception, or an operator interrupt) to the new state together with the
  observable events of the iteration (alert printed, farewell printed,
  error printed, number of sleeps, whether the loop continues).
-/

namespace RustChainMonitor

/-- A miner record from the miners endpoint.  Each field models a JSON
key read with a dict get; an absent key reads as none. -/
structure Miner where
  miner : Option String
  miner_id : Option String
  device_arch : Option String
  last_attestation_time : Option Int
deriving DecidableEq, Repr

/-- The epoch endpoint payload; the code reads current_epoch with a
default of 0. -/
structure EpochData where
  current_epoch : Option Int
deriving DecidableEq, Repr

/-- The fixed hardware-multiplier table of calculate_expected_reward,
in the source order of the Python dict literal. -/
def multipliers : List (String × ℚ) :=
  [("g4", 5/2), ("g5", 2), ("g3", 9/5), ("power8", 3/2),
   ("retro", 7/5), ("apple_silicon", 6/5), ("modern", 1)]

/-- Python str.lower applied to architecture names: lowercase each
character (the table keys are ASCII, where Char.toLower agrees with
Python). -/
def strLower (s : String) : String := ⟨s.data.map Char.toLower⟩

/-- multipliers.get(device_arch.lower(), 1.0) from the source. -/
def multiplierOf (device_arch : String) : ℚ :=
  (multipliers.lookup (strLower device_arch)).getD 1

/-- base_reward = 1.5 RTC per epoch from the source. -/
def base_reward : ℚ := 3/2

/-- calculate_expected_reward: base reward times the hardware
multiplier. -/
def calculate_expected_reward (device_arch : String) : ℚ :=
  base_reward * multiplierOf device_arch

/-- The miner-lookup loop of watch_miner: scan the fetched list in
order; an element matches when its miner key or its miner_id key equals
the target id; stop at the first match. -/
def findOurMiner (miners : List Miner) (miner_id : String) : Option Miner :=
  match miners with
  | [] => none
  | m :: rest =>
      if m.miner = some miner_id ∨ m.miner_id = some miner_id then some m
      else findOurMiner rest miner_id

/-- The local session state of the watch loop. -/
structure WatchState where
  last_balance : ℚ
  last_epoch : Int
deriving DecidableEq, Repr

/-- last_balance = 0.0, last_epoch = 0 before the first iteration. -/
def initialWatchState : WatchState := ⟨0, 0⟩

/-- The outcome of the fetches of one iteration of the watch loop:
all three requests succeed with data, or some statement of the try body
raises an exception that the generic handler catches, or the operator
interrupts the process. -/
inductive FetchOutcome where
  | ok (epoch_data : EpochData) (balance : ℚ) (miners : List Miner)
  | exn (msg : String)
  | interrupt
deriving DecidableEq, Repr

/-- The observable result of one iteration of the watch loop. -/
structure StepOutput where
  state : WatchState
  newEpochAlert : Option ℚ
  farewellPrinted : Bool
  errorPrinted : Option String
  sleepCount : Nat
  continuesLoop : Bool
deriving DecidableEq, Repr

/-- One iteration of the watch_miner loop body.  On success the alert
fires exactly when current_epoch > last_epoch and last_epoch > 0,
displaying balance - last_balance, and the state is overwritten with the
fetched values; a caught exception prints the error and sleeps once,
leaving the state untouched; an interrupt prints the farewell and breaks
the loop. -/
def watchStep (s : WatchState) : FetchOutcome → StepOutput
  | .interrupt => ⟨s, none, true, none, 0, false⟩
  | .exn msg => ⟨s, none, false, some msg, 1, true⟩
  | .ok epoch_data balance _miners =>
      let current_epoch := epoch_data.current_epoch.getD 0
      let alert : Option ℚ :=
        if current_epoch > s.last_epoch ∧ s.last_epoch > 0 then
          some (balance - s.last_balance)
        else none
      ⟨⟨balance, current_epoch⟩, alert, false, none, 1, true⟩

/-- device_arch of a miner with the "unknown" default used by the
display and grouping code. -/
def archOf (m : Miner) : String := m.device_arch.getD "unknown"

/-- One dict update of the grouping loop of network_summary:
by_arch[arch] = by_arch.get(arch, 0) + 1 on an insertion-ordered
association list. -/
def updateCount : List (String × Nat) → String → List (String × Nat)
  | [], arch => [(arch, 1)]
  | (a, n) :: rest, arch =>
      if a = arch then (a, n + 1) :: rest
      else (a, n) :: updateCount rest arch

/-- The by_arch dict of network_summary built by folding the grouping
loop over the fetched miner list. -/
def byArch (miners : List Miner) : List (String × Nat) :=
  miners.foldl (fun acc m => updateCount acc (archOf m)) []

/-- The active-miner count printed by network_summary: len(miners). -/
def minersActiveCount (miners : List Miner) : Nat := miners.length

/-- The hardware-distribution listing of network_summary:
sorted(by_arch.items(), key neg count), i.e. a stable sort ascending in
the negated count, hence non-increasing in the count. -/
def hardwareDistribution (miners : List Miner) : List (String × Nat) :=
  (byArch miners).mergeSort (fun a b => decide (b.2 ≤ a.2))

/-- The multiplier of every string lies between the default 1 and the
largest table entry 5/2. -/
theorem multiplierOf_bounds (s : String) :
    1 ≤ multiplierOf s ∧ multiplierOf s ≤ 5/2 := by
  unfold multiplierOf multipliers
  simp only [List.lookup]
  repeat' split
  all_goals norm_num

/-- Evaluation of the table at "G4". -/
theorem multiplierOf_G4 : multiplierOf "G4" = 5/2 := by
  have h : strLower "G4" = "g4" := by decide
  unfold multiplierOf
  rw [h]
  norm_num [multipliers, List.lookup]

/-- Evaluation of the table at "g4". -/
theorem multiplierOf_g4 : multiplierOf "g4" = 5/2 := by
  have h : strLower "g4" = "g4" := by decide
  unfold multiplierOf
  rw [h]
  norm_num [multipliers, List.lookup]

/-- Evaluation of the table at "modern". -/
theorem multiplierOf_modern : multiplierOf "modern" = 1 := by decide

/-- Evaluation of the default at "xyz". -/
theorem multiplierOf_xyz : multiplierOf "xyz" = 1 := by decide

/-- C2: the reward multiplier is looked up case-insensitively in the
fixed seven-entry table and defaults to 1 for any string whose
lowercase form is not a table key; the multiplier of "G4" equals that
of "g4" equals 5/2, and that of "xyz" equals 1. -/
theorem multiplier_case_insensitive_default :
    (∀ s t : String, strLower s = strLower t → multiplierOf s = multiplierOf t) ∧
    (∀ s : String,
        strLower s ∉ ["g4", "g5", "g3", "power8", "retro", "apple_silicon", "modern"] →
        multiplierOf s = 1) ∧
    (multipliers.map Prod.fst
      = ["g4", "g5", "g3", "power8", "retro", "apple_silicon", "modern"]) ∧
    multiplierOf "G4" = 5/2 ∧ multiplierOf "g4" = 5/2 ∧ multiplierOf "xyz" = 1 := by
  refine ⟨?_, ?_, by decide, multiplierOf_G4, multiplierOf_g4, multiplierOf_xyz⟩
  · intro s t h
    unfold multiplierOf
    rw [h]
  · intro s h
    simp only [List.mem_cons, List.not_mem_nil, or_false, not_or] at h
    obtain ⟨h1, h2, h3, h4, h5, h6, h7⟩ := h
    unfold multiplierOf multipliers
    simp only [List.lookup, beq_eq_false_iff_ne.mpr h1, beq_eq_false_iff_ne.mpr h2,
      beq_eq_false_iff_ne.mpr h3, beq_eq_false_iff_ne.mpr h4, beq_eq_false_iff_ne.mpr h5,
      beq_eq_false_iff_ne.mpr h6, beq_eq_false_iff_ne.mpr h7]
    rfl

/-- Witness for C2 at concrete inputs: "PoWeR8" and "power8" share a
lowercase form and get equal multipliers, and "xyz" gets the default. -/
theorem multiplier_case_insensitive_default_witness :
    multiplierOf "PoWeR8" = multiplierOf "power8" ∧ multiplierOf "xyz" = 1 :=
  ⟨multiplier_case_insensitive_default.1 "PoWeR8" "power8" (by decide),
   multiplier_case_insensitive_default.2.1 "xyz" (by decide)⟩

/-- C3: the expected reward of every string is the base reward 3/2
times its multiplier; in particular the expected reward of "g4" is
15/4. -/
theorem expected_reward_eq :
    (∀ s : String, calculate_expected_reward s = 3/2 * multiplierOf s) ∧
    calculate_expected_reward "g4" = 15/4 := by
  constructor
  · intro s
    rfl
  · unfold calculate_expected_reward base_reward
    rw [multiplierOf_g4]
    norm_num

/-- C10: the expected reward of every string lies between 3/2 and 15/4,
and both bounds are attained ("modern" and the default at 3/2, "g4" at
15/4). -/
theorem expected_reward_bounds :
    (∀ s : String,
        3/2 ≤ calculate_expected_reward s ∧ calculate_expected_reward s ≤ 15/4) ∧
    calculate_expected_reward "modern" = 3/2 ∧
    calculate_expected_reward "xyz" = 3/2 ∧
    calculate_expected_reward "g4" = 15/4 := by
  refine ⟨?_, ?_, ?_, ?_⟩
  · intro s
    obtain ⟨h1, h2⟩ := multiplierOf_bounds s
    unfold calculate_expected_reward base_reward
    constructor <;> nlinarith
  · unfold calculate_expected_reward base_reward
    rw [multiplierOf_modern]
    norm_num
  · unfold calculate_expected_reward base_reward
    rw [multiplierOf_xyz]
    norm_num
  · unfold calculate_expected_reward base_reward
    rw [multiplierOf_g4]
    norm_num

/-- C1: on a successful iteration the epoch-rollover alert fires
exactly when the fetched current_epoch exceeds last_epoch and
last_epoch is positive; with last_epoch = 0 (first iteration) it never
fires, whatever current_epoch is. -/
theorem epoch_alert_fires_iff
    (s : WatchState) (ed : EpochData) (bal : ℚ) (ms : List Miner) :
    ((watchStep s (FetchOutcome.ok ed bal ms)).newEpochAlert.isSome = true ↔
      ed.current_epoch.getD 0 > s.last_epoch ∧ s.last_epoch > 0) ∧
    (s.last_epoch = 0 →
      (watchStep s (FetchOutcome.ok ed bal ms)).newEpochAlert = none) := by
  constructor
  · simp only [watchStep]
    split
    · simpa
    · rename_i h
      constructor
      · intro hs
        simp at hs
      · intro hc
        exact absurd hc h
  · intro h0
    simp only [watchStep]
    rw [if_neg]
    rintro ⟨-, hpos⟩
    omega

/-- Witness for C1: with last_epoch = 0 and a large fetched epoch the
alert stays off. -/
theorem epoch_alert_fires_iff_witness :
    (watchStep ⟨0, 0⟩ (FetchOutcome.ok ⟨some 99⟩ 7 [])).newEpochAlert = none :=
  (epoch_alert_fires_iff ⟨0, 0⟩ ⟨some 99⟩ 7 []).2 rfl

/-- C4: an interrupt prints the farewell and breaks the loop; every
other caught exception prints the error, sleeps once, and the loop
continues; a successful iteration also continues. -/
theorem watch_loop_error_handling
    (s : WatchState) (msg : String) (ed : EpochData) (bal : ℚ) (ms : List Miner) :
    ((watchStep s FetchOutcome.interrupt).farewellPrinted = true ∧
     (watchStep s FetchOutcome.interrupt).continuesLoop = false) ∧
    ((watchStep s (FetchOutcome.exn msg)).errorPrinted = some msg ∧
     (watchStep s (FetchOutcome.exn msg)).sleepCount = 1 ∧
     (watchStep s (FetchOutcome.exn msg)).continuesLoop = true) ∧
    (watchStep s (FetchOutcome.ok ed bal ms)).continuesLoop = true := by
  exact ⟨⟨rfl, rfl⟩, ⟨rfl, rfl, rfl⟩, rfl⟩

/-- Counterexample to C5 as stated: on an iteration whose fetch raises
a caught exception the session state is not overwritten — it still
holds the previous values, so the post-state depends on the pre-state. -/
theorem state_overwrite_counterexample :
    (watchStep ⟨5, 3⟩ (FetchOutcome.exn "boom")).state = ⟨5, 3⟩ ∧
    (watchStep ⟨5, 3⟩ (FetchOutcome.exn "boom")).state ≠
      (watchStep ⟨0, 0⟩ (FetchOutcome.exn "boom")).state := by
  constructor
  · rfl
  · simp only [watchStep]
    intro h
    have h5 : (5 : ℚ) = 0 := congrArg WatchState.last_balance h
    norm_num at h5

/-- C5 amended: the session state is overwritten with the freshly
fetched balance and current_epoch exactly on iterations whose fetches
succeed; on an iteration whose exception is caught, and on an
interrupt, the state keeps its previous values. -/
theorem state_update_amended
    (s : WatchState) (ed : EpochData) (bal : ℚ) (ms : List Miner) (msg : String) :
    (watchStep s (FetchOutcome.ok ed bal ms)).state = ⟨bal, ed.current_epoch.getD 0⟩ ∧
    (watchStep s (FetchOutcome.exn msg)).state = s ∧
    (watchStep s FetchOutcome.interrupt).state = s := by
  exact ⟨rfl, rfl, rfl⟩

/-- C9: whenever the alert fires, the displayed reward is exactly the
fetched balance minus the previous balance, negative values included. -/
theorem reward_delta_exact
    (s : WatchState) (ed : EpochData) (bal : ℚ) (ms : List Miner) (r : ℚ) :
    (watchStep s (FetchOutcome.ok ed bal ms)).newEpochAlert = some r →
    r = bal - s.last_balance := by
  simp only [watchStep]
  split
  · intro h
    exact (Option.some_inj.mp h).symm
  · intro h
    exact absurd h (by simp)

/-- Witness for C9: a balance drop from 10 to 4 across a rollover
displays the negative delta -6. -/
theorem reward_delta_exact_witness :
    (watchStep ⟨10, 1⟩ (FetchOutcome.ok ⟨some 2⟩ 4 [])).newEpochAlert = some (-6) ∧
    (-6 : ℚ) = 4 - 10 := by
  have halert :
      (watchStep ⟨10, 1⟩ (FetchOutcome.ok ⟨some 2⟩ 4 [])).newEpochAlert = some (-6) := by
    simp only [watchStep, Option.getD]
    rw [if_pos (by norm_num)]
    norm_num
  have hsub : (-6 : ℚ) = 4 - (10 : ℚ) := by
    have := reward_delta_exact ⟨10, 1⟩ ⟨some 2⟩ 4 [] (-6) halert
    simpa using this
  exact ⟨halert, hsub⟩

/-- C6: the miner lookup scans the fetched list in order and selects
the first element whose miner key or miner_id key equals the target id
(an element with both keys matches through either one). -/
theorem miner_lookup_first_match (miners : List Miner) (miner_id : String) :
    findOurMiner miners miner_id =
      miners.find?
        (fun m => decide (m.miner = some miner_id ∨ m.miner_id = some miner_id)) := by
  induction miners with
  | nil => rfl
  | cons m rest ih =>
      by_cases h : m.miner = some miner_id ∨ m.miner_id = some miner_id
      · simp [findOurMiner, List.find?, h]
      · simp [findOurMiner, List.find?, h, ih]

/-- One grouping update adds exactly one to the histogram total. -/
theorem updateCount_snd_sum (acc : List (String × Nat)) (arch : String) :
    ((updateCount acc arch).map Prod.snd).sum = ((acc.map Prod.snd).sum) + 1 := by
  induction acc with
  | nil => rfl
  | cons p rest ih =>
      obtain ⟨a, n⟩ := p
      by_cases h : a = arch
      · simp [updateCount, h]
        omega
      · simp [updateCount, h, ih]
        omega

/-- Folding the grouping loop adds the list length to the histogram
total, whatever the accumulator. -/
theorem byArch_fold_sum (miners : List Miner) :
    ∀ acc : List (String × Nat),
      (((miners.foldl (fun acc m => updateCount acc (archOf m)) acc).map Prod.snd).sum)
        = (acc.map Prod.snd).sum + miners.length := by
  induction miners with
  | nil =>
      intro acc
      simp
  | cons m rest ih =>
      intro acc
      simp only [List.foldl_cons, List.length_cons]
      rw [ih (updateCount acc (archOf m)), updateCount_snd_sum]
      omega

/-- C7: the summary prints len(miners) as the miner count, and the
by-arch histogram counts sum to that same length. -/
theorem summary_count_and_histogram_total (miners : List Miner) :
    minersActiveCount miners = miners.length ∧
    ((byArch miners).map Prod.snd).sum = miners.length := by
  constructor
  · rfl
  · unfold byArch
    rw [byArch_fold_sum miners []]
    simp

/-- C8: the printed hardware distribution is non-increasing in the
count; the order of groups with equal counts is whatever the grouping
produced. -/
theorem histogram_sorted_desc (miners : List Miner) :
    List.Pairwise (fun a b : String × Nat => b.2 ≤ a.2)
      (hardwareDistribution miners) := by
  unfold hardwareDistribution
  have h := @List.sorted_mergeSort (String × Nat)
    (fun a b : String × Nat => decide (b.2 ≤ a.2))
    (fun a b c hab hbc => by
      simp only [decide_eq_true_eq] at hab hbc ⊢
      omega)
    (fun a b => by
      simp only [Bool.or_eq_true, decide_eq_true_eq]
      omega)
    (byArch miners)
  exact h.imp (fun hab => by simpa using hab)

end RustChainMonitor
